import Mathlib

/-!
# sqlhooks zap hook: embedding of `zap.go`

A shallow embedding of the hook of `src/zap.go`: the driver registration
(`initZapHook`), the field builder (`buildQueryArgsFields`) and the three
lifecycle methods of `zapHook` (`Before`, `After`, `OnError`).

Side effects are made explicit:
* a call of a logging method returns the list of records it hands to the logger;
* `time.Now()` is an extra argument `now`, the clock reading at the call;
* the driver table of `database/sql` is an explicit `Registry` value, and a
  Go panic is the `Except.error` result.

The Go libraries the file calls (`context`, `time`, `zap`, `database/sql`,
`sqlhooks`) are not part of the repository; the few operations used are
modelled below, each marked as such.
-/

set_option autoImplicit false

namespace SqlHooksZap

/-! ## Library values -/

/-- Modelled from the spec: `time.Duration` of the Go package `time` (not under
src/), a signed 64-bit count of nanoseconds. -/
abbrev Duration := Int

/-- Modelled from the spec: `time.Time` of the Go package `time` (not under
src/), represented by the reading of the process clock in nanoseconds that
`time.Now()` attaches to it. -/
abbrev Time := Int

/-- Modelled from the spec: the largest `time.Duration`, `1<<63 - 1` (package
`time` is not under src/). -/
def maxDuration : Duration := 2 ^ 63 - 1

/-- Modelled from the spec: the smallest `time.Duration`, `-1 << 63` (package
`time` is not under src/). -/
def minDuration : Duration := -(2 ^ 63)

/-- Wrap of an integer to the signed 64-bit range, the result of an `int64`
subtraction in Go. -/
def wrap64 (x : Int) : Int := (x + 2 ^ 63) % 2 ^ 64 - 2 ^ 63

/-- Modelled from the spec: `Time.Sub` of the Go package `time` (not under src/)
on two clock readings: the 64-bit difference, replaced by the largest or the
smallest duration when the subtraction overflowed. -/
def Time.Sub (t u : Time) : Duration :=
  let d := wrap64 (t - u)
  if d < 0 ∧ t > u then maxDuration
  else if d > 0 ∧ t < u then minDuration
  else d

/-- Modelled from the spec: a Go `error` value that is not nil (the `error`
interface is not under src/); a possibly-nil `error` is an `Option GoError`. -/
structure GoError where
  msg : String
  deriving DecidableEq

/-- Modelled from the spec: a Go `interface{}` value, as passed in the argument
list of a statement or stored in a context (the dynamic types are not under
src/). -/
inductive GoValue where
  | nil
  | bool (b : Bool)
  | int (i : Int)
  | str (s : String)
  | time (t : Time)
  deriving DecidableEq

/-! ## context -/

/-- Modelled from the spec: a key of `context.WithValue` (package `context` is
not under src/). `sqlDurationKey` is the key `(*sqlDurationKey)(nil)` of the
unexported type declared in `zap.go`; every key of another package is an
`other`. -/
inductive CtxKey where
  | sqlDurationKey
  | other (name : String)
  deriving DecidableEq

/-- Modelled from the spec: `context.Context` (package `context` is not under
src/): the background context, a value node of `context.WithValue`, or a
cancellation node, which carries no value of its own. -/
inductive Context where
  | background
  | withValue (parent : Context) (key : CtxKey) (val : GoValue)
  | withCancel (parent : Context)
  deriving DecidableEq

/-- Modelled from the spec: `Context.Value` of package `context` (not under
src/): the value of the nearest node with that key, nil when there is none. -/
def Context.Value : Context → CtxKey → GoValue
  | Context.background, _ => GoValue.nil
  | Context.withValue parent key val, k => if k = key then val else parent.Value k
  | Context.withCancel parent, k => parent.Value k

/-- Modelled from the spec: `context.WithValue` (not under src/). -/
def Context.WithValue (parent : Context) (key : CtxKey) (val : GoValue) : Context :=
  Context.withValue parent key val

/-- The type assertion `v.(time.Time)` with the comma-ok form. -/
def GoValue.asTime : GoValue → Option Time
  | GoValue.time t => some t
  | _ => none

/-! ## zap -/

/-- Modelled from the spec: the payload of a `zap.Field` (package zap is not
under src/), for the field constructors `zap.go` uses. -/
inductive FieldValue where
  | skip
  | string (s : String)
  | any (vs : List GoValue)
  | duration (d : Duration)
  | error (e : GoError)
  deriving DecidableEq

/-- Modelled from the spec: `zap.Field` (package zap is not under src/): a key
and a typed payload. -/
structure Field where
  Key : String
  Value : FieldValue
  deriving DecidableEq

/-- Modelled from the spec: severity of a log record (zapcore is not under
src/). -/
inductive Level where
  | debug
  | info
  | warn
  | error
  deriving DecidableEq

/-- Modelled from the spec: one record handed to the logging capability: its
level, its message, the fields bound to the logger (`context`) and the fields of
the call (`fields`). Whether the backend writes it (level threshold, encoder,
outputs) is not modelled. -/
structure Entry where
  level : Level
  msg : String
  context : List Field
  fields : List Field
  deriving DecidableEq

/-- Modelled from the spec: `*zap.Logger` that is not nil (package zap is not
under src/): the fields bound to it by `With`. A possibly-nil logger is an
`Option Logger`. -/
structure Logger where
  context : List Field
  deriving DecidableEq

/-- Modelled from the spec: `zap.String` (not under src/). -/
def zapString (key val : String) : Field := ⟨key, FieldValue.string val⟩

/-- Modelled from the spec: `zap.Any` (not under src/) at a `[]interface{}`
value: the list is kept as it is. -/
def zapAny (key : String) (val : List GoValue) : Field := ⟨key, FieldValue.any val⟩

/-- Modelled from the spec: `zap.Duration` (not under src/). -/
def zapDuration (key : String) (val : Duration) : Field := ⟨key, FieldValue.duration val⟩

/-- Modelled from the spec: `zap.Skip` (not under src/): the field every
encoder ignores. -/
def zapSkip : Field := ⟨"", FieldValue.skip⟩

/-- Modelled from the spec: `zap.Error` (not under src/): the field `error` of a
non-nil error, `zap.Skip()` of a nil one. -/
def zapError (err : Option GoError) : Field :=
  match err with
  | none => zapSkip
  | some e => ⟨"error", FieldValue.error e⟩

/-- Modelled from the spec: the fields a zap encoder adds (package zap is not
under src/): every field but the skipped ones. -/
def encoded (fields : List Field) : List Field :=
  fields.filter (fun f => decide (f.Value ≠ FieldValue.skip))

/-- Modelled from the spec: `Logger.With` of zap (not under src/): a child
logger with the given fields bound after those of the parent. -/
def Logger.With (l : Logger) (fields : List Field) : Logger :=
  ⟨l.context ++ encoded fields⟩

/-- Modelled from the spec: `Logger.Info` of zap (not under src/): hands one
record of level info to the logger. -/
def Logger.Info (l : Logger) (msg : String) (fields : List Field) : List Entry :=
  [⟨Level.info, msg, l.context, encoded fields⟩]

/-- Modelled from the spec: `Logger.Error` of zap (not under src/): hands one
record of level error to the logger. -/
def Logger.Error (l : Logger) (msg : String) (fields : List Field) : List Entry :=
  [⟨Level.error, msg, l.context, encoded fields⟩]

/-! ## zap.go -/

/-- The constant `zapDriverName` (zap.go:16). -/
def zapDriverName : String := "mysql-zap"

/-- The struct `zapHook` (zap.go:33): the embedded `*zap.Logger`, nil when
`none`, and the flag `IsPrintSQLDuration`. A `*zapHook` receiver, which may be
nil, is an `Option zapHook`. -/
structure zapHook where
  Logger : Option Logger
  IsPrintSQLDuration : Bool
  deriving DecidableEq

/-- The context key `(*sqlDurationKey)(nil)` (zap.go:41). -/
def sqlDurationKey : CtxKey := CtxKey.sqlDurationKey

/-- The function `buildQueryArgsFields` (zap.go:43). -/
def buildQueryArgsFields (query : String) (args : List GoValue) : List Field :=
  if args.length = 0 then
    [zapString "query" query]
  else
    [zapString "query" query, zapAny "args" args]

/-- Result of `Before` and of `After`: the returned context, the returned error
and the records handed to the logger during the call. -/
structure HookResult where
  ctx : Context
  err : Option GoError
  log : List Entry
  deriving DecidableEq

/-- The method `(*zapHook).Before` (zap.go:50); `now` is the value of
`time.Now()` at the call. -/
def zapHook.Before (z : Option zapHook) (ctx : Context) (query : String)
    (args : List GoValue) (now : Time) : HookResult :=
  match z with
  | none => ⟨ctx, none, []⟩
  | some h =>
    match h.Logger with
    | none => ⟨ctx, none, []⟩
    | some l =>
      let log := l.Info "log before sql exec" (buildQueryArgsFields query args)
      let ctx := if h.IsPrintSQLDuration then
          ctx.WithValue sqlDurationKey (GoValue.time now)
        else ctx
      ⟨ctx, none, log⟩

/-- The method `(*zapHook).After` (zap.go:62); `now` is the value of
`time.Now()` at the call. -/
def zapHook.After (z : Option zapHook) (ctx : Context) (query : String)
    (args : List GoValue) (now : Time) : HookResult :=
  match z with
  | none => ⟨ctx, none, []⟩
  | some h =>
    match h.Logger with
    | none => ⟨ctx, none, []⟩
    | some l =>
      let durationField :=
        match (ctx.Value sqlDurationKey).asTime with
        | some v => zapDuration "duration" (Time.Sub now v)
        | none => zapSkip
      let log := (l.With [durationField]).Info "log after sql exec"
        (buildQueryArgsFields query args)
      ⟨ctx, none, log⟩

/-- The method `(*zapHook).OnError` (zap.go:76): the returned error and the
records handed to the logger during the call. -/
def zapHook.OnError (z : Option zapHook) (_ctx : Context) (err : Option GoError)
    (query : String) (args : List GoValue) : Option GoError × List Entry :=
  match z with
  | none => (none, [])
  | some h =>
    match h.Logger with
    | none => (none, [])
    | some l =>
      let log := (l.With [zapError err]).Error "log after err happened"
        (buildQueryArgsFields query args)
      (none, log)

/-! ## sqlhooks and database/sql -/

/-- Modelled from the spec: `handlerErr` of package sqlhooks (not under src/),
the error the wrapped statement returns to its caller after a failed execution
with driver error `err`: the result of `OnError` when that is not nil, `err`
otherwise. -/
def handlerErr (z : Option zapHook) (ctx : Context) (err : Option GoError)
    (query : String) (args : List GoValue) : Option GoError :=
  match (zapHook.OnError z ctx err query args).1 with
  | some e => some e
  | none => err

/-- Modelled from the spec: a `driver.Driver` value (not under src/): the MySQL
driver `new(mysql.MySQLDriver)`, or the result of `sqlhooks.Wrap`. -/
inductive Driver where
  | mysql
  | wrap (driver : Driver) (hooks : zapHook)
  deriving DecidableEq

/-- Modelled from the spec: the driver table of `database/sql` (not under src/),
most recent registration first. -/
abbrev Registry := List (String × Driver)

/-- Whether a driver is registered under `name`. -/
def Registry.has (drivers : Registry) (name : String) : Bool :=
  drivers.any (fun e => decide (e.1 = name))

/-- Modelled from the spec: `sql.Register` of `database/sql` (not under src/):
adds the driver under `name`; registering a name twice is a fatal error (a Go
panic, the `Except.error` result, which leaves no new table). -/
def sqlRegister (drivers : Registry) (name : String) (driver : Driver) :
    Except String Registry :=
  if drivers.has name then
    Except.error ("sql: Register called twice for driver " ++ name)
  else
    Except.ok ((name, driver) :: drivers)

/-- The function `initZapHook` (zap.go:18); `L` is the global logger `zap.L()`
and `drivers` the driver table at the call. -/
def initZapHook (log : Option Logger) (L : Logger) (drivers : Registry) :
    Except String Registry :=
  let log := match log with
    | none => L
    | some l => l
  let hook : zapHook := ⟨some log, true⟩
  sqlRegister drivers zapDriverName (Driver.wrap Driver.mysql hook)

/-! ## Interleaved executions on one hook -/

/-- One statement execution: the context of the caller, the query text and the
arguments. -/
structure Invocation where
  ctx : Context
  query : String
  args : List GoValue

/-- Progress of one statement execution through the wrapper of sqlhooks: before
its `Before` call, between `Before` and `After` (holding the context `Before`
returned), or finished. -/
inductive ExecState where
  | notStarted
  | running (ctx : Context)
  | done
  deriving DecidableEq

/-- State of a set of executions sharing one hook: the progress of each
execution and the records emitted so far, each tagged with its execution. -/
structure World where
  execs : Nat → ExecState
  log : List (Nat × Entry)

/-- Initial world: no execution has started and nothing is logged. -/
def World.init : World := ⟨fun _ => ExecState.notStarted, []⟩

/-- One scheduling step `(id, now)`: execution `id` makes its next hook call at
clock time `now`, `Before` with the context of its caller, then `After` with the
context its own `Before` returned. -/
def step (z : Option zapHook) (inv : Nat → Invocation) (w : World) (ev : Nat × Time) :
    World :=
  match w.execs ev.1 with
  | ExecState.notStarted =>
    let r := zapHook.Before z (inv ev.1).ctx (inv ev.1).query (inv ev.1).args ev.2
    ⟨Function.update w.execs ev.1 (ExecState.running r.ctx),
      w.log ++ r.log.map (fun e => (ev.1, e))⟩
  | ExecState.running ctx =>
    let r := zapHook.After z ctx (inv ev.1).query (inv ev.1).args ev.2
    ⟨Function.update w.execs ev.1 ExecState.done,
      w.log ++ r.log.map (fun e => (ev.1, e))⟩
  | ExecState.done => w

/-- Runs a schedule, an interleaving of the hook calls of the executions. -/
def run (z : Option zapHook) (inv : Nat → Invocation) (w : World)
    (sched : List (Nat × Time)) : World :=
  sched.foldl (step z inv) w

/-- The records of execution `a` in a tagged log. -/
def recordsOf (a : Nat) (log : List (Nat × Entry)) : List Entry :=
  (log.filter (fun e => decide (e.1 = a))).map (fun e => e.2)

/-- Whether a record carries a field with the given key. -/
def Entry.hasKey (e : Entry) (key : String) : Bool :=
  (e.context ++ e.fields).any (fun f => decide (f.Key = key))

/-- Whether a logger carries a bound field with the given key. -/
def Logger.hasKey (l : Logger) (key : String) : Bool :=
  l.context.any (fun f => decide (f.Key = key))

/-! ## Shared lemmas -/

theorem encoded_buildQueryArgsFields (query : String) (args : List GoValue) :
    encoded (buildQueryArgsFields query args) = buildQueryArgsFields query args := by
  unfold buildQueryArgsFields encoded
  split <;> simp [zapString, zapAny]

theorem buildQueryArgsFields_nil (query : String) :
    buildQueryArgsFields query [] = [⟨"query", FieldValue.string query⟩] := by
  simp [buildQueryArgsFields, zapString]

theorem buildQueryArgsFields_cons (query : String) (a : GoValue) (as : List GoValue) :
    buildQueryArgsFields query (a :: as) =
      [⟨"query", FieldValue.string query⟩, ⟨"args", FieldValue.any (a :: as)⟩] := by
  simp [buildQueryArgsFields, zapString, zapAny]

theorem Before_log_of_logger (l : Logger) (b : Bool) (ctx : Context) (query : String)
    (args : List GoValue) (now : Time) :
    (zapHook.Before (some ⟨some l, b⟩) ctx query args now).log =
      [⟨Level.info, "log before sql exec", l.context, buildQueryArgsFields query args⟩] := by
  simp [zapHook.Before, Logger.Info, encoded_buildQueryArgsFields]

theorem encoded_zapDuration (key : String) (d : Duration) :
    encoded [zapDuration key d] = [zapDuration key d] := by
  simp [encoded, zapDuration]

theorem encoded_zapSkip : encoded [zapSkip] = [] := by
  simp [encoded, zapSkip]

theorem encoded_zapError (e : GoError) :
    encoded [zapError (some e)] = [⟨"error", FieldValue.error e⟩] := by
  simp [encoded, zapError]

theorem After_log_of_start (l : Logger) (b : Bool) (ctx : Context) (query : String)
    (args : List GoValue) (now v : Time)
    (hv : (ctx.Value sqlDurationKey).asTime = some v) :
    (zapHook.After (some ⟨some l, b⟩) ctx query args now).log =
      [⟨Level.info, "log after sql exec",
        l.context ++ [zapDuration "duration" (Time.Sub now v)],
        buildQueryArgsFields query args⟩] := by
  simp only [zapHook.After, Logger.Info, Logger.With, encoded_buildQueryArgsFields, hv,
    encoded_zapDuration]

theorem After_log_of_no_start (l : Logger) (b : Bool) (ctx : Context) (query : String)
    (args : List GoValue) (now : Time)
    (hv : (ctx.Value sqlDurationKey).asTime = none) :
    (zapHook.After (some ⟨some l, b⟩) ctx query args now).log =
      [⟨Level.info, "log after sql exec", l.context,
        buildQueryArgsFields query args⟩] := by
  simp only [zapHook.After, Logger.Info, Logger.With, encoded_buildQueryArgsFields, hv,
    encoded_zapSkip, List.append_nil]

theorem Before_ctx_Value_start (l : Logger) (ctx : Context) (query : String)
    (args : List GoValue) (now : Time) :
    ((zapHook.Before (some ⟨some l, true⟩) ctx query args now).ctx.Value
      sqlDurationKey).asTime = some now := by
  simp [zapHook.Before, Context.WithValue, Context.Value, GoValue.asTime]

theorem wrap64_of_fits (x : Int) (h1 : minDuration ≤ x) (h2 : x ≤ maxDuration) :
    wrap64 x = x := by
  unfold wrap64
  simp only [minDuration, maxDuration, Duration] at h1 h2
  omega

theorem Time_Sub_of_fits (t u : Time) (h1 : minDuration ≤ t - u) (h2 : t - u ≤ maxDuration) :
    Time.Sub t u = t - u := by
  unfold Time.Sub
  simp only [wrap64_of_fits (t - u) h1 h2]
  simp only [Time, Duration] at *
  rw [if_neg (by omega), if_neg (by omega)]

theorem Time_Sub_nonneg (t u : Time) (h : u ≤ t) : 0 ≤ Time.Sub t u := by
  unfold Time.Sub
  by_cases c1 : wrap64 (t - u) < 0 ∧ t > u
  · rw [if_pos c1]
    simp [maxDuration]
  · have c2 : ¬ (wrap64 (t - u) > 0 ∧ t < u) := fun hc => absurd h (not_le.mpr hc.2)
    rw [if_neg c1, if_neg c2]
    by_cases hlt : u < t
    · exact not_lt.mp (fun hn => c1 ⟨hn, hlt⟩)
    · have e : t - u = 0 := sub_eq_zero.mpr (le_antisymm (not_lt.mp hlt) h)
      rw [e]
      simp [wrap64]

theorem buildQueryArgsFields_eq_ite (query : String) (args : List GoValue) :
    buildQueryArgsFields query args =
      if args = [] then [⟨"query", FieldValue.string query⟩]
      else [⟨"query", FieldValue.string query⟩, ⟨"args", FieldValue.any args⟩] := by
  cases args with
  | nil => simp [buildQueryArgsFields_nil]
  | cons a as => simp [buildQueryArgsFields_cons]

theorem buildQueryArgsFields_no_duration (query : String) (args : List GoValue) :
    (buildQueryArgsFields query args).any (fun f => decide (f.Key = "duration")) = false := by
  cases args with
  | nil => simp [buildQueryArgsFields_nil]
  | cons a as => simp [buildQueryArgsFields_cons]

theorem recordsOf_append (a : Nat) (xs ys : List (Nat × Entry)) :
    recordsOf a (xs ++ ys) = recordsOf a xs ++ recordsOf a ys := by
  simp [recordsOf]

theorem recordsOf_tagged_self (a : Nat) (es : List Entry) :
    recordsOf a (es.map (fun e => (a, e))) = es := by
  induction es with
  | nil => rfl
  | cons e es ih =>
    simp only [recordsOf] at ih
    simp [recordsOf, ih]

theorem recordsOf_tagged_other (a b : Nat) (h : b ≠ a) (es : List Entry) :
    recordsOf a (es.map (fun e => (b, e))) = [] := by
  induction es with
  | nil => rfl
  | cons e es ih =>
    simp only [recordsOf] at ih
    simp [recordsOf, h, ih]

/-- A step of another execution leaves the state and the records of `a` as they
are. -/
theorem step_other (z : Option zapHook) (inv : Nat → Invocation) (w : World)
    (ev : Nat × Time) (a : Nat) (h : ev.1 ≠ a) :
    (step z inv w ev).execs a = w.execs a ∧
    recordsOf a (step z inv w ev).log = recordsOf a w.log := by
  unfold step
  split
  · simp [Function.update_noteq (Ne.symm h), recordsOf_append, recordsOf_tagged_other a ev.1 h]
  · simp [Function.update_noteq (Ne.symm h), recordsOf_append, recordsOf_tagged_other a ev.1 h]
  · exact ⟨rfl, rfl⟩

/-- A step of execution `a` depends only on the state and the records of `a`. -/
theorem step_own (z : Option zapHook) (inv : Nat → Invocation) (w w2 : World)
    (ev : Nat × Time) (he : w.execs ev.1 = w2.execs ev.1)
    (hl : recordsOf ev.1 w.log = recordsOf ev.1 w2.log) :
    (step z inv w ev).execs ev.1 = (step z inv w2 ev).execs ev.1 ∧
    recordsOf ev.1 (step z inv w ev).log = recordsOf ev.1 (step z inv w2 ev).log := by
  unfold step
  rw [← he]
  cases w.execs ev.1 with
  | notStarted => simp [recordsOf_append, hl]
  | running ctx => simp [recordsOf_append, hl]
  | done => exact ⟨he, hl⟩

/-- Projection: what a schedule does to execution `a` is what the steps of `a`
alone do. -/
theorem run_project (z : Option zapHook) (inv : Nat → Invocation) (a : Nat)
    (sched : List (Nat × Time)) :
    ∀ w w2 : World, w.execs a = w2.execs a → recordsOf a w.log = recordsOf a w2.log →
      (run z inv w sched).execs a =
        (run z inv w2 (sched.filter (fun ev => decide (ev.1 = a)))).execs a ∧
      recordsOf a (run z inv w sched).log =
        recordsOf a (run z inv w2 (sched.filter (fun ev => decide (ev.1 = a)))).log := by
  induction sched with
  | nil => intro w w2 he hl; exact ⟨he, hl⟩
  | cons ev rest ih =>
    intro w w2 he hl
    by_cases h : ev.1 = a
    · have hs := step_own z inv w w2 ev (h ▸ he) (h ▸ hl)
      rw [h] at hs
      have := ih (step z inv w ev) (step z inv w2 ev) hs.1 hs.2
      simpa [run, List.filter_cons, h] using this
    · have hs := step_other z inv w ev a h
      have := ih (step z inv w ev) w2 (hs.1.trans he) (hs.2.trans hl)
      simpa [run, List.filter_cons, h] using this

/-! ## The claims -/

/-- C1: no hook phase returns an error. For every hook state (nil hook, hook
without logger, hook with logger), context, query, argument list, clock reading
and driver error `err` (nil included), `OnError` returns nil, `Before` and
`After` return a nil error, and the error the wrapper of sqlhooks hands to the
caller of the statement is `err` itself. -/
theorem hooks_return_nil_error (z : Option zapHook) (ctx : Context) (query : String)
    (args : List GoValue) (now : Time) (err : Option GoError) :
    (zapHook.OnError z ctx err query args).1 = none ∧
    (zapHook.Before z ctx query args now).err = none ∧
    (zapHook.After z ctx query args now).err = none ∧
    handlerErr z ctx err query args = err := by
  have h1 : (zapHook.OnError z ctx err query args).1 = none := by
    unfold zapHook.OnError
    split
    · rfl
    · split <;> rfl
  refine ⟨h1, ?_, ?_, ?_⟩
  · unfold zapHook.Before
    split
    · rfl
    · split <;> rfl
  · unfold zapHook.After
    split
    · rfl
    · split <;> rfl
  · unfold handlerErr
    rw [h1]

/-- C2: `buildQueryArgsFields q args` is exactly `[query = q]` for the empty
argument list, and exactly `[query = q, args = args]` for a list of one or more
elements, the `args` field holding the list as passed (same values, same
order). -/
theorem buildQueryArgsFields_exact (query : String) (a : GoValue) (as : List GoValue) :
    buildQueryArgsFields query [] = [⟨"query", FieldValue.string query⟩] ∧
    buildQueryArgsFields query (a :: as) =
      [⟨"query", FieldValue.string query⟩, ⟨"args", FieldValue.any (a :: as)⟩] :=
  ⟨buildQueryArgsFields_nil query, buildQueryArgsFields_cons query a as⟩

/-- C3: for a hook with a logger `l` (either value of the duration flag), every
call of `Before` hands exactly one record to the logger, of level info, whose
call fields are the query text alone for an empty argument list and the query
text followed by the arguments otherwise; the fields bound to `l` itself are
passed on untouched. The scenario of the spec,
`Before("INSERT INTO t (score) VALUES (?)", [42])`, is the last conjunct. -/
theorem Before_emits_one_info_record (l : Logger) (b : Bool) (ctx : Context)
    (query : String) (args : List GoValue) (now : Time) :
    (zapHook.Before (some ⟨some l, b⟩) ctx query args now).log =
      [⟨Level.info, "log before sql exec", l.context,
        if args = [] then [⟨"query", FieldValue.string query⟩]
        else [⟨"query", FieldValue.string query⟩, ⟨"args", FieldValue.any args⟩]⟩] ∧
    (zapHook.Before (some ⟨some ⟨[]⟩, b⟩) ctx "INSERT INTO t (score) VALUES (?)"
        [GoValue.int 42] now).log =
      [⟨Level.info, "log before sql exec", [],
        [⟨"query", FieldValue.string "INSERT INTO t (score) VALUES (?)"⟩,
         ⟨"args", FieldValue.any [GoValue.int 42]⟩]⟩] := by
  constructor
  · rw [Before_log_of_logger, buildQueryArgsFields_eq_ite]
  · rw [Before_log_of_logger, buildQueryArgsFields_cons]

/-- C4: for a hook with a logger `l` and duration measurement enabled, when
`Before` is called at clock time `t0` and `After` at clock time `t1` with the
context that `Before` returned, `After` hands exactly one record of level info
to the logger, with the call fields of the `Before` record and, bound after the
fields of `l`, one `duration` field holding `t1.Sub(t0)`. That duration is
`t1 - t0` whenever the difference is a `time.Duration` (a signed 64-bit
nanosecond count), and it is non-negative whenever `t0 ≤ t1`. -/
theorem After_duration_of_Before (l : Logger) (ctx : Context) (query : String)
    (args : List GoValue) (t0 t1 : Time) :
    (zapHook.Before (some ⟨some l, true⟩) ctx query args t0).log =
      [⟨Level.info, "log before sql exec", l.context,
        buildQueryArgsFields query args⟩] ∧
    (zapHook.After (some ⟨some l, true⟩)
        (zapHook.Before (some ⟨some l, true⟩) ctx query args t0).ctx query args t1).log =
      [⟨Level.info, "log after sql exec",
        l.context ++ [⟨"duration", FieldValue.duration (Time.Sub t1 t0)⟩],
        buildQueryArgsFields query args⟩] ∧
    (minDuration ≤ t1 - t0 → t1 - t0 ≤ maxDuration → Time.Sub t1 t0 = t1 - t0) ∧
    (t0 ≤ t1 → 0 ≤ Time.Sub t1 t0) := by
  refine ⟨Before_log_of_logger l true ctx query args t0, ?_,
    Time_Sub_of_fits t1 t0, Time_Sub_nonneg t1 t0⟩
  rw [After_log_of_start l true _ query args t1 t0
    (Before_ctx_Value_start l ctx query args t0)]
  rfl

/-- Instance of C4, the scenario of the spec: `Before("SELECT * FROM t", [])` at
clock time 1 ms and `After` 5 ms later give a second record with a duration of
5 ms (5000000 nanoseconds) and no `args` field. -/
theorem After_duration_of_Before_witness :
    (zapHook.After (some ⟨some ⟨[]⟩, true⟩)
        (zapHook.Before (some ⟨some ⟨[]⟩, true⟩) Context.background "SELECT * FROM t" []
          1000000).ctx "SELECT * FROM t" [] 6000000).log =
      [⟨Level.info, "log after sql exec",
        [⟨"duration", FieldValue.duration (Time.Sub 6000000 1000000)⟩],
        buildQueryArgsFields "SELECT * FROM t" []⟩] ∧
    Time.Sub 6000000 1000000 = 6000000 - 1000000 ∧
    (0 : Int) ≤ Time.Sub 6000000 1000000 :=
  ⟨(After_duration_of_Before ⟨[]⟩ Context.background "SELECT * FROM t" []
      1000000 6000000).2.1,
   (After_duration_of_Before ⟨[]⟩ Context.background "SELECT * FROM t" []
      1000000 6000000).2.2.1 (by decide) (by decide),
   (After_duration_of_Before ⟨[]⟩ Context.background "SELECT * FROM t" []
      1000000 6000000).2.2.2 (by decide)⟩

/-- C5 as stated fails: `After` never reads `IsPrintSQLDuration`. A hook with
a logger without bound fields and with measurement disabled, called with a
context that carries the start time 5 under the duration key, at clock time 12,
emits a record with a `duration` field of 7 nanoseconds; so the statement that a
disabled flag alone keeps the duration field out is false. -/
theorem After_duration_with_measurement_disabled :
    (zapHook.After (some ⟨some ⟨[]⟩, false⟩)
        (Context.background.WithValue sqlDurationKey (GoValue.time 5))
        "SELECT * FROM t" [] 12).log =
      [⟨Level.info, "log after sql exec", [⟨"duration", FieldValue.duration 7⟩],
        [⟨"query", FieldValue.string "SELECT * FROM t"⟩]⟩] ∧
    ¬ (∀ (l : Logger) (b : Bool) (ctx : Context) (query : String) (args : List GoValue)
        (now : Time),
        (b = false ∨ (ctx.Value sqlDurationKey).asTime = none) →
        ∀ e ∈ (zapHook.After (some ⟨some l, b⟩) ctx query args now).log,
          e.hasKey "duration" = l.hasKey "duration") := by
  refine ⟨by decide, fun h => ?_⟩
  have h2 := h ⟨[]⟩ false (Context.background.WithValue sqlDurationKey (GoValue.time 5))
    "SELECT * FROM t" [] 12 (Or.inl rfl)
    ⟨Level.info, "log after sql exec", [⟨"duration", FieldValue.duration 7⟩],
      [⟨"query", FieldValue.string "SELECT * FROM t"⟩]⟩ (by decide)
  exact absurd h2 (by decide)

/-- C5, amended: for every hook with a logger `l` (either value of the duration
flag), query, argument list and context passed to `After`, if the context
carries no start time under the duration key, `After` emits exactly one record,
with the fields bound to `l` and the query/argument fields and nothing else: it
has a `duration` field only if `l` itself carried one (the field is omitted, not
set to zero). In particular, with measurement disabled, the context `Before`
returns for such a context carries no start time either, and `After` called with
it emits that same record. -/
theorem After_no_duration_without_start (l : Logger) (b : Bool) (ctx : Context)
    (query : String) (args : List GoValue) (t0 now : Time)
    (h : (ctx.Value sqlDurationKey).asTime = none) :
    (zapHook.After (some ⟨some l, b⟩) ctx query args now).log =
      [⟨Level.info, "log after sql exec", l.context,
        buildQueryArgsFields query args⟩] ∧
    (∀ e ∈ (zapHook.After (some ⟨some l, b⟩) ctx query args now).log,
      e.hasKey "duration" = l.hasKey "duration") ∧
    (zapHook.After (some ⟨some l, false⟩)
        (zapHook.Before (some ⟨some l, false⟩) ctx query args t0).ctx query args now).log =
      [⟨Level.info, "log after sql exec", l.context,
        buildQueryArgsFields query args⟩] := by
  have h1 := After_log_of_no_start l b ctx query args now h
  refine ⟨h1, ?_, ?_⟩
  · intro e he
    rw [h1] at he
    rw [List.mem_singleton.mp he]
    simp only [Entry.hasKey, Logger.hasKey, List.any_append,
      buildQueryArgsFields_no_duration, Bool.or_false]
  · exact After_log_of_no_start l false _ query args now h

/-- Instance of amended C5: the background context carries no start time, and
`After` on it emits a record without duration field even with the flag set. -/
theorem After_no_duration_without_start_witness :
    (Context.background.Value sqlDurationKey).asTime = none ∧
    (zapHook.After (some ⟨some ⟨[]⟩, true⟩) Context.background "SELECT * FROM t" []
        12).log =
      [⟨Level.info, "log after sql exec", [],
        buildQueryArgsFields "SELECT * FROM t" []⟩] :=
  ⟨by decide,
   (After_no_duration_without_start ⟨[]⟩ true Context.background "SELECT * FROM t" []
      5 12 (by decide)).1⟩

/-- C6: for a hook with a logger `l` (either value of the duration flag), every
call of `OnError` with a driver error `e` hands exactly one record to the
logger, of level error, whose call fields are the query/argument fields `Before`
emits for the same query and arguments, with one `error` field carrying `e`
bound after the fields of `l`; and it returns nil. -/
theorem OnError_emits_one_error_record (l : Logger) (b : Bool) (ctx : Context)
    (e : GoError) (query : String) (args : List GoValue) (now : Time) :
    zapHook.OnError (some ⟨some l, b⟩) ctx (some e) query args =
      (none, [⟨Level.error, "log after err happened",
        l.context ++ [⟨"error", FieldValue.error e⟩],
        buildQueryArgsFields query args⟩]) ∧
    (zapHook.Before (some ⟨some l, b⟩) ctx query args now).log =
      [⟨Level.info, "log before sql exec", l.context,
        buildQueryArgsFields query args⟩] := by
  refine ⟨?_, Before_log_of_logger l b ctx query args now⟩
  simp only [zapHook.OnError, Logger.Error, Logger.With, encoded_buildQueryArgsFields,
    encoded_zapError]

/-- C7: when the logging capability is absent (the hook is nil, or its logger is
nil, with either value of the duration flag), the three phases do nothing: for
every context, query, argument list, clock reading and error, `Before` and
`After` emit no record and return the input context (so `Before` attaches no
start time) with a nil error, and `OnError` emits no record and returns nil. -/
theorem phases_noop_without_logger (z : Option zapHook) (ctx : Context) (query : String)
    (args : List GoValue) (now : Time) (err : Option GoError)
    (h : z = none ∨ ∃ b, z = some ⟨none, b⟩) :
    zapHook.Before z ctx query args now = ⟨ctx, none, []⟩ ∧
    zapHook.After z ctx query args now = ⟨ctx, none, []⟩ ∧
    zapHook.OnError z ctx err query args = (none, []) := by
  rcases h with h | ⟨b, h⟩ <;> subst h <;> exact ⟨rfl, rfl, rfl⟩

/-- Instance of C7: a hook without logger and with measurement enabled. -/
theorem phases_noop_without_logger_witness :
    ((some ⟨none, true⟩ : Option zapHook) = none ∨
      ∃ b, (some ⟨none, true⟩ : Option zapHook) = some ⟨none, b⟩) ∧
    zapHook.Before (some ⟨none, true⟩) Context.background "SELECT * FROM t"
        [GoValue.int 1] 10 = ⟨Context.background, none, []⟩ ∧
    zapHook.After (some ⟨none, true⟩) Context.background "SELECT * FROM t"
        [GoValue.int 1] 10 = ⟨Context.background, none, []⟩ ∧
    zapHook.OnError (some ⟨none, true⟩) Context.background (some ⟨"ErrConnectionLost"⟩)
        "SELECT * FROM t" [GoValue.int 1] = (none, []) :=
  ⟨Or.inr ⟨true, rfl⟩,
   phases_noop_without_logger (some ⟨none, true⟩) Context.background "SELECT * FROM t"
    [GoValue.int 1] 10 (some ⟨"ErrConnectionLost"⟩) (Or.inr ⟨true, rfl⟩)⟩

/-- C10: the hook only adds its own start-time entry to the context of the
caller. For every hook state and input context, the context `Before` returns
gives every key other than the duration key of the hook the value the input
context gives it; it is the input context itself when measurement is disabled;
and `After` returns exactly the context it was given. -/
theorem hook_context_frame (z : Option zapHook) (ctx : Context) (query : String)
    (args : List GoValue) (now : Time) (k : CtxKey) (hk : k ≠ sqlDurationKey) :
    (zapHook.Before z ctx query args now).ctx.Value k = ctx.Value k ∧
    ((∀ h, z = some h → h.IsPrintSQLDuration = false) →
      (zapHook.Before z ctx query args now).ctx = ctx) ∧
    (zapHook.After z ctx query args now).ctx = ctx := by
  refine ⟨?_, ?_, ?_⟩
  · rcases z with _ | ⟨_ | l, b⟩
    · rfl
    · rfl
    · cases b
      · rfl
      · simp [zapHook.Before, Context.WithValue, Context.Value, hk]
  · intro hd
    rcases z with _ | ⟨_ | l, b⟩
    · rfl
    · rfl
    · have hb : b = false := hd _ rfl
      subst hb
      rfl
  · rcases z with _ | ⟨_ | l, b⟩ <;> rfl

/-- Instance of C10: a key of another package keeps its value through `Before`
of a measuring hook. -/
theorem hook_context_frame_witness :
    CtxKey.other "trace" ≠ sqlDurationKey ∧
    (zapHook.Before (some ⟨some ⟨[]⟩, true⟩)
        (Context.background.WithValue (CtxKey.other "trace") (GoValue.str "abc"))
        "SELECT * FROM t" [] 10).ctx.Value (CtxKey.other "trace") = GoValue.str "abc" :=
  ⟨by decide,
   (hook_context_frame (some ⟨some ⟨[]⟩, true⟩)
    (Context.background.WithValue (CtxKey.other "trace") (GoValue.str "abc"))
    "SELECT * FROM t" [] 10 (CtxKey.other "trace") (by decide)).1⟩

/-- C8: registration is write-once per identifier. `initZapHook` registers the
MySQL driver wrapped with a hook (the given logger, or the global one for a nil
logger, measurement enabled) under `"mysql-zap"`, which is not `"mysql"`. On a
driver table without that identifier the registration succeeds; calling
`initZapHook` again on the resulting table is a fatal error; and two
registrations under distinct identifiers that are not yet in a table both
succeed, whatever the drivers. -/
theorem initZapHook_registers_once (log log2 : Option Logger) (L L2 : Logger)
    (drivers : Registry) (h : drivers.has zapDriverName = false) :
    zapDriverName = "mysql-zap" ∧ zapDriverName ≠ "mysql" ∧
    initZapHook log L drivers =
      Except.ok (("mysql-zap", Driver.wrap Driver.mysql ⟨some (log.getD L), true⟩)
        :: drivers) ∧
    initZapHook log2 L2
        (("mysql-zap", Driver.wrap Driver.mysql ⟨some (log.getD L), true⟩) :: drivers) =
      Except.error "sql: Register called twice for driver mysql-zap" ∧
    (∀ (table : Registry) (name1 name2 : String) (d1 d2 : Driver), name1 ≠ name2 →
      table.has name1 = false → table.has name2 = false →
      sqlRegister table name1 d1 = Except.ok ((name1, d1) :: table) ∧
      sqlRegister ((name1, d1) :: table) name2 d2 =
        Except.ok ((name2, d2) :: (name1, d1) :: table)) := by
  refine ⟨rfl, by decide, ?_, ?_, ?_⟩
  · have h0 : Registry.has drivers "mysql-zap" = false := h
    cases log <;> simp [initZapHook, sqlRegister, h0, zapDriverName]
  · simp [initZapHook, sqlRegister, Registry.has, zapDriverName]
  · intro table name1 name2 d1 d2 hne h1 h2
    have h3 : Registry.has ((name1, d1) :: table) name2 = false := by
      simp only [Registry.has, List.any_cons, Bool.or_eq_false_iff, decide_eq_false_iff_not]
      exact ⟨hne, h2⟩
    simp [sqlRegister, h1, h3]

/-- Instance of C8: the driver table right after the MySQL driver registered
itself as `"mysql"`. -/
theorem initZapHook_registers_once_witness :
    Registry.has [("mysql", Driver.mysql)] zapDriverName = false ∧
    initZapHook none ⟨[]⟩ [("mysql", Driver.mysql)] =
      Except.ok [("mysql-zap", Driver.wrap Driver.mysql ⟨some ⟨[]⟩, true⟩),
        ("mysql", Driver.mysql)] ∧
    initZapHook none ⟨[]⟩
        [("mysql-zap", Driver.wrap Driver.mysql ⟨some ⟨[]⟩, true⟩),
          ("mysql", Driver.mysql)] =
      Except.error "sql: Register called twice for driver mysql-zap" :=
  ⟨by decide,
   (initZapHook_registers_once none none ⟨[]⟩ ⟨[]⟩ [("mysql", Driver.mysql)]
      (by decide)).2.2.1,
   (initZapHook_registers_once none none ⟨[]⟩ ⟨[]⟩ [("mysql", Driver.mysql)]
      (by decide)).2.2.2.1⟩

/-- C9: executions on one shared hook do not cross-contaminate timing. Take a
hook with a logger `l` and measurement enabled, any table of executions and any
schedule (interleaving of their `Before` and `After` calls, each execution
calling `After` with the context its own `Before` returned) in which execution
`a` calls `Before` at clock time `t0` and `After` at clock time `t1`. Then the
records of `a` are its `Before` record and an `After` record whose duration
field is `t1.Sub(t0)` (which is `t1 - t0` whenever the difference is a
`time.Duration`), and they are the records `a` produces when it runs alone. -/
theorem executions_do_not_share_timing (l : Logger) (inv : Nat → Invocation)
    (sched : List (Nat × Time)) (a : Nat) (t0 t1 : Time)
    (h : sched.filter (fun ev => decide (ev.1 = a)) = [(a, t0), (a, t1)]) :
    recordsOf a (run (some ⟨some l, true⟩) inv World.init sched).log =
      [⟨Level.info, "log before sql exec", l.context,
          buildQueryArgsFields (inv a).query (inv a).args⟩,
       ⟨Level.info, "log after sql exec",
          l.context ++ [⟨"duration", FieldValue.duration (Time.Sub t1 t0)⟩],
          buildQueryArgsFields (inv a).query (inv a).args⟩] ∧
    recordsOf a (run (some ⟨some l, true⟩) inv World.init sched).log =
      recordsOf a (run (some ⟨some l, true⟩) inv World.init [(a, t0), (a, t1)]).log ∧
    (minDuration ≤ t1 - t0 → t1 - t0 ≤ maxDuration → Time.Sub t1 t0 = t1 - t0) := by
  have hp := (run_project (some ⟨some l, true⟩) inv a sched World.init World.init rfl rfl).2
  rw [h] at hp
  refine ⟨?_, hp, Time_Sub_of_fits t1 t0⟩
  rw [hp]
  have hb := Before_log_of_logger l true (inv a).ctx (inv a).query (inv a).args t0
  have ha := After_log_of_start l true
    (zapHook.Before (some ⟨some l, true⟩) (inv a).ctx (inv a).query (inv a).args t0).ctx
    (inv a).query (inv a).args t1 t0
    (Before_ctx_Value_start l (inv a).ctx (inv a).query (inv a).args t0)
  simp only [run, List.foldl_cons, List.foldl_nil, step, World.init, Function.update_same,
    List.nil_append, recordsOf_append, recordsOf_tagged_self, hb, ha]
  rfl

/-- Instance of C9: executions 1 and 2 interleaved as Before 1, Before 2,
After 1, After 2 at clock times 10, 12, 15, 40: the duration of execution 1 is
5 nanoseconds. -/
theorem executions_do_not_share_timing_witness :
    ([((1 : Nat), (10 : Time)), (2, 12), (1, 15), (2, 40)].filter
        (fun ev => decide (ev.1 = 1)) = [(1, 10), (1, 15)]) ∧
    recordsOf 1 (run (some ⟨some ⟨[]⟩, true⟩)
        (fun _ => ⟨Context.background, "SELECT * FROM t", []⟩) World.init
        [(1, 10), (2, 12), (1, 15), (2, 40)]).log =
      [⟨Level.info, "log before sql exec", [],
          buildQueryArgsFields "SELECT * FROM t" []⟩,
       ⟨Level.info, "log after sql exec",
          [⟨"duration", FieldValue.duration (Time.Sub 15 10)⟩],
          buildQueryArgsFields "SELECT * FROM t" []⟩] ∧
    Time.Sub 15 10 = 15 - 10 :=
  ⟨by decide,
   (executions_do_not_share_timing ⟨[]⟩
      (fun _ => ⟨Context.background, "SELECT * FROM t", []⟩)
      [(1, 10), (2, 12), (1, 15), (2, 40)] 1 10 15 (by decide)).1,
   (executions_do_not_share_timing ⟨[]⟩
      (fun _ => ⟨Context.background, "SELECT * FROM t", []⟩)
      [(1, 10), (2, 12), (1, 15), (2, 40)] 1 10 15 (by decide)).2.2
      (by decide) (by decide)⟩

end SqlHooksZap
